import Mathlib

/-!
Verification of the entitlement support view, the social-link formatting
helpers and the memory-leak graphing helper of this repository fragment.

The Python code is shallowly embedded: each Django view method or utility
function becomes an executable Lean function over explicit state.  Database
rows live in a `DBState` record; the durable effect of a request is the
returned `DBState`, and calls to external collaborators (the enrollment
subsystem, the storage layer's save/insert operations) are recorded in an
event trace so that ordering properties can be stated.
-/

/-- Python truthiness of an optional string value: `None` and the empty
string are falsy (`if not value`). -/
def falsy : Option String → Bool
  | none => true
  | some s => s = ""

/-- The message `msg` names `sub`: `sub` occurs verbatim inside `msg`. -/
def mentions (msg sub : String) : Prop := sub.data <:+: msg.data

namespace Entitlements

/-- A course run (`CourseOverview`), identified by its course id. -/
structure CourseRun where
  id : String
deriving DecidableEq, Repr

/-- The `CourseEnrollment` row an entitlement was spent on
(`entitlement.enrollment_course_run`): it names the learner and the run. -/
structure Enrollment where
  user : String
  course : CourseRun
deriving DecidableEq, Repr

/-- A `CourseEntitlement` row.  `expired_at` is an optional timestamp and
`enrollment_course_run` the optional consumption link. -/
structure CourseEntitlement where
  uuid : String
  user : String
  course_uuid : String
  mode : String
  expired_at : Option Nat
  enrollment_course_run : Option Enrollment
deriving DecidableEq, Repr

/-- A `CourseEntitlementSupportDetail` audit row. -/
structure SupportDetail where
  entitlement : String
  reason : String
  comments : Option String
  unenrolled_run : Option CourseRun
  support_user : String
deriving DecidableEq, Repr

/-- Modelled from the spec: the reason code `LEAVE_SESSION` enumerated on the
external audit model `CourseEntitlementSupportDetail` (the entitlements app is
outside this fragment; only the symbolic constant is needed). -/
def LEAVE_SESSION : String := "LEAVE_SESSION"

/-- Modelled from the spec: the display string of an entitlement
(`str(entitlement)` in the source; the entitlements app defining `__str__` is
outside this fragment).  The spec identifies an entitlement by its unique id,
so the display string is modelled as the uuid. -/
def entitlementStr (e : CourseEntitlement) : String := e.uuid

/-- The durable store: entitlement rows and audit rows.  Audit rows are
append-only. -/
structure DBState where
  entitlements : List CourseEntitlement
  support_details : List SupportDetail
deriving DecidableEq, Repr

/-- Observable interactions of one request: the read of the consumption
record, the external unenrollment call, the persisted entitlement update
(`entitlement.save()`) and the audit-row insert. -/
inductive Event where
  | readConsumption (run : CourseRun) (user : String)
  | unenroll (user : String) (course_id : String) (skip_refund : Bool)
  | saveEntitlement (e : CourseEntitlement)
  | createSupportDetail (d : SupportDetail)
deriving DecidableEq, Repr

/-- An HTTP response produced by the view: `HttpResponseBadRequest` with a
plain-text message, or a 201 `Response` carrying the serialized entitlement
(the serializer output is modelled as the entitlement value itself). -/
inductive HttpResponse where
  | badRequest (msg : String)
  | created (data : CourseEntitlement)
deriving DecidableEq, Repr

/-- What the Python view method hands back to the framework: an
`HttpResponse`, the value `None` (falling off the end of the method), or an
exception escaping the handler. -/
inductive Outcome where
  | response (r : HttpResponse)
  | noResponse
  | unhandled (exn : String)
deriving DecidableEq, Repr

/-- Fault injection for the storage layer inside the atomic block: no fault,
a `DatabaseError` raised at `entitlement.save()`, or one raised at the
`CourseEntitlementSupportDetail.objects.create` insert. -/
inductive DbFault where
  | ok
  | atSave
  | atCreateDetail
deriving DecidableEq, Repr

/-- `EntitlementSupportView._reinstate_entitlement`.  Checks the consumption
link, then inside `transaction.atomic()` runs `unexpire_entitlement` (read the
run and learner from the consumption record, unenroll with refund skipped,
clear `expired_at`, drop the consumption link, save) and inserts the audit
row; returns 201 with the serialized entitlement.  The in-memory assignments
to the entitlement object become durable at `entitlement.save()`, which the
`saveEntitlement` event records.  On a `DatabaseError` the atomic block rolls
the durable state back, and the `except DatabaseError` clause then evaluates
the names `course_uuid` and `username_or_email`, which are not defined in the
method, so a `NameError` escapes instead of the intended bad-request
response. -/
def reinstate_entitlement (fault : DbFault) (support_user : String)
    (entitlement : CourseEntitlement) (comments : Option String)
    (db : DBState) : Outcome × DBState × List Event :=
  match entitlement.enrollment_course_run with
  | none =>
      (Outcome.response (HttpResponse.badRequest
        ("Entitlement " ++ entitlementStr entitlement ++
          " has not been spent on a course run.")), db, [])
  | some enr =>
      let unenrolled_run := enr.course
      let e2 : CourseEntitlement :=
        { entitlement with expired_at := none, enrollment_course_run := none }
      let preEvents : List Event :=
        [Event.readConsumption unenrolled_run enr.user,
         Event.unenroll enr.user unenrolled_run.id true]
      match fault with
      | DbFault.atSave => (Outcome.unhandled "NameError", db, preEvents)
      | DbFault.atCreateDetail =>
          (Outcome.unhandled "NameError", db,
            preEvents ++ [Event.saveEntitlement e2])
      | DbFault.ok =>
          let detail : SupportDetail :=
            { entitlement := entitlement.uuid, reason := LEAVE_SESSION,
              comments := comments, unenrolled_run := some unenrolled_run,
              support_user := support_user }
          let db2 : DBState :=
            { entitlements := db.entitlements.map
                (fun e => if e.uuid = entitlement.uuid then e2 else e),
              support_details := db.support_details ++ [detail] }
          (Outcome.response (HttpResponse.created e2), db2,
            preEvents ++ [Event.saveEntitlement e2,
                          Event.createSupportDetail detail])

/-- An update request as the view reads it: `request.user` plus the
`request.data` fields, each possibly absent. -/
structure UpdateRequest where
  user : String
  entitlement_uuid : Option String
  reason : Option String
  comments : Option String
deriving DecidableEq, Repr

/-- The bad-request message for a missing required field of `update`. -/
def requiredFieldMsg (fieldname : String) : String :=
  "The field " ++ fieldname ++ " is required."

/-- The bad-request message when the entitlement uuid resolves to no row. -/
def notFoundMsg (entitlement_uuid : String) : String :=
  "Could not find entitlement " ++ entitlement_uuid ++ " for update"

/-- `EntitlementSupportView.update`.  Validates `entitlement_uuid` and
`reason`, resolves the entitlement row, and dispatches to the reinstatement
path when the reason is `LEAVE_SESSION`.  For any other non-empty reason the
Python method has no return statement on that path and yields `None`. -/
def update (fault : DbFault) (req : UpdateRequest) (db : DBState) :
    Outcome × DBState × List Event :=
  if falsy req.entitlement_uuid then
    (Outcome.response (HttpResponse.badRequest
      (requiredFieldMsg "entitlement_uuid")), db, [])
  else if falsy req.reason then
    (Outcome.response (HttpResponse.badRequest (requiredFieldMsg "reason")),
      db, [])
  else
    let entitlement_uuid := req.entitlement_uuid.getD ""
    match db.entitlements.find? (fun e => e.uuid = entitlement_uuid) with
    | none =>
        (Outcome.response (HttpResponse.badRequest
          (notFoundMsg entitlement_uuid)), db, [])
    | some entitlement =>
        if req.reason = some LEAVE_SESSION then
          reinstate_entitlement fault req.user entitlement req.comments db
        else
          (Outcome.noResponse, db, [])

/-- The required fields of `create` (`REQUIRED_CREATION_FIELDS`). -/
def REQUIRED_CREATION_FIELDS : List String :=
  ["username_or_email", "course_uuid", "reason", "mode"]

/-- A creation request as the view reads it. -/
structure CreateRequest where
  user : String
  username_or_email : Option String
  course_uuid : Option String
  reason : Option String
  mode : Option String
  comments : Option String
deriving DecidableEq, Repr

/-- `request.data.get(field)` for the creation fields, by field name. -/
def CreateRequest.get (req : CreateRequest) (field : String) : Option String :=
  if field = "username_or_email" then req.username_or_email
  else if field = "course_uuid" then req.course_uuid
  else if field = "reason" then req.reason
  else if field = "mode" then req.mode
  else none

/-- The accumulated `missing_fields_string` of `create`: one leading space and
the field name for every falsy required field, in declaration order. -/
def missingFieldsString (req : CreateRequest) : String :=
  REQUIRED_CREATION_FIELDS.foldl
    (fun acc field =>
      if falsy (req.get field) then acc ++ " " ++ field else acc) ""

/-- The bad-request message of `create` listing the missing fields. -/
def missingFieldsMsg (missing_fields : String) : String :=
  "The following required fields are missing from the request:" ++
    missing_fields

/-- `EntitlementSupportView.create`.  Collects the required fields, reports
the missing ones, resolves the user (users are modelled as a list of known
user names).  On the success path the source unpacks
`entitlement, _ = CourseEntitlement.objects.create(...)`; a model instance is
not iterable, so that statement raises a `TypeError` which escapes the
handler. -/
def create (users : List String) (req : CreateRequest) (db : DBState) :
    Outcome × DBState :=
  if missingFieldsString req ≠ "" then
    (Outcome.response (HttpResponse.badRequest
      (missingFieldsMsg (missingFieldsString req))), db)
  else
    let username_or_email := req.username_or_email.getD ""
    if username_or_email ∈ users then
      (Outcome.unhandled "TypeError", db)
    else
      (Outcome.response (HttpResponse.badRequest
        ("Could not find user " ++ username_or_email ++ ".")), db)

/-- A sample consumption record, used to instantiate the theorems below. -/
def sampleEnr : Enrollment :=
  { user := "alice", course := { id := "course-v1:edX+DemoX+Demo" } }

/-- A sample entitlement spent on a course run. -/
def sampleE : CourseEntitlement :=
  { uuid := "ent-1", user := "alice", course_uuid := "course-uuid-1",
    mode := "verified", expired_at := some 1514764800,
    enrollment_course_run := some sampleEnr }

/-- A sample entitlement that was never spent on a course run. -/
def sampleUnspentE : CourseEntitlement :=
  { uuid := "ent-2", user := "bob", course_uuid := "course-uuid-2",
    mode := "audit", expired_at := some 1514764800,
    enrollment_course_run := none }

/-- A sample store holding the two sample entitlements and no audit rows. -/
def sampleDb : DBState :=
  { entitlements := [sampleE, sampleUnspentE], support_details := [] }

/-- A sample reinstatement request for the spent entitlement. -/
def sampleReq : UpdateRequest :=
  { user := "agent", entitlement_uuid := some "ent-1",
    reason := some LEAVE_SESSION, comments := some "reinstated per policy" }

/-- The spent entitlement after reinstatement. -/
def sampleE2 : CourseEntitlement :=
  { sampleE with expired_at := none, enrollment_course_run := none }

/-- The audit row the sample reinstatement creates. -/
def sampleDetail : SupportDetail :=
  { entitlement := "ent-1", reason := LEAVE_SESSION,
    comments := some "reinstated per policy",
    unenrolled_run := some sampleEnr.course, support_user := "agent" }

end Entitlements

namespace Accounts

/-- A character of Python 2 urlparse's `scheme_chars`: ASCII letters, digits
and the characters `+`, `-`, `.`. -/
def isSchemeChar (c : Char) : Bool :=
  c.isAlpha || c.isDigit || c == '+' || c == '-' || c == '.'

/-- The scheme-stripping step of Python 2 `urlsplit`: when a colon follows a
non-empty run of scheme characters at the start of the url, everything up to
and including that colon is removed. -/
def stripScheme (l : List Char) : List Char :=
  let before := l.takeWhile (fun c => c ≠ ':')
  if before.length < l.length ∧ before ≠ [] ∧ before.all isSchemeChar then
    l.drop (before.length + 1)
  else l

/-- `urlparse(new_social_link)[1] + urlparse(new_social_link)[2]`: Python 2
`urlsplit` strips the scheme, reads the netloc after a leading `//` up to the
next `/`, `?` or `#`, and then splits fragment and query off the remainder.
The fragment and query splits are modelled unconditionally, as Python 2
performs them for the schemes social links carry (none, `http`, `https`). -/
def urlparseNetlocPath (url : String) : String :=
  let l := stripScheme url.data
  let netlocRest : List Char × List Char :=
    if l.take 2 = ['/', '/'] then
      let nl := (l.drop 2).takeWhile (fun c => c ≠ '/' ∧ c ≠ '?' ∧ c ≠ '#')
      (nl, (l.drop 2).drop nl.length)
    else ([], l)
  let path := (netlocRest.2.takeWhile (fun c => c ≠ '#')).takeWhile
    (fun c => c ≠ '?')
  String.mk (netlocRest.1 ++ path)

/-- Case-insensitive character match, as `re.IGNORECASE` compares a literal
pattern character with a text character. -/
def charCI (p c : Char) : Bool := p.toLower = c.toLower

/-- Does the text start with the literal pattern, case-insensitively? -/
def startsWithCI : List Char → List Char → Bool
  | [], _ => true
  | _ :: _, [] => false
  | p :: ps, c :: cs => charCI p c && startsWithCI ps cs

/-- The lazy tail group of the pattern: against remaining text `t`, the group
`(?P<username>.*?)[/]?$` captures `t` minus one trailing slash when `t` ends
in a slash, and all of `t` otherwise. -/
def stripTrailingSlash (t : List Char) : List Char :=
  if t.getLast? = some '/' then t.dropLast else t

/-- `re.search` of `(www\.)?<escaped url_stub>(?P<username>.*?)[/]?$` with
`re.IGNORECASE`: at the leftmost position where the pattern matches through
to the end of the string, the optional `www.` is preferred when it fits, the
escaped stub is matched literally case-insensitively, and the username group
captures the rest minus an optional trailing slash.  The dot of the pattern
is modelled as matching every character and `$` as the end of the string. -/
def searchUsername (stub : List Char) : List Char → Option (List Char)
  | [] =>
    if startsWithCI ("www.".data ++ stub) [] then
      some (stripTrailingSlash (List.drop (4 + stub.length) []))
    else if startsWithCI stub [] then
      some (stripTrailingSlash (List.drop stub.length []))
    else none
  | c :: rest =>
    if startsWithCI ("www.".data ++ stub) (c :: rest) then
      some (stripTrailingSlash ((c :: rest).drop (4 + stub.length)))
    else if startsWithCI stub (c :: rest) then
      some (stripTrailingSlash ((c :: rest).drop stub.length))
    else searchUsername stub rest

/-- `_is_valid_social_username`: the string holds no forward slash. -/
def is_valid_social_username (value : String) : Bool :=
  !(value.data.contains '/')

/-- `_get_username_from_social_link`.  A falsy link is returned as it was
passed in; otherwise the link is parsed as a url, the username is the regex
group when the pattern matches and the whole link otherwise, and an invalid
username (one holding a slash) yields `None`.  The platform configuration
`settings.SOCIAL_PLATFORMS[platform_name]['url_stub']` is an explicit
argument `sp` mapping a platform name to its url stub. -/
def get_username_from_social_link (sp : String → String)
    (platform_name : String) (new_social_link : Option String) :
    Option String :=
  if falsy new_social_link then new_social_link
  else
    let link := new_social_link.getD ""
    let url_domain_and_path := urlparseNetlocPath link
    let url_stub := sp platform_name
    let username :=
      match searchUsername url_stub.data url_domain_and_path.data with
      | some u => String.mk u
      | none => link
    if is_valid_social_username username then some username else none

/-- `format_social_link`.  A falsy link is returned as it was passed in; a
link with no extractable valid username yields `None`; otherwise the returned
url is built up from the stub and the username. -/
def format_social_link (sp : String → String) (platform_name : String)
    (new_social_link : Option String) : Option String :=
  if falsy new_social_link then new_social_link
  else
    let url_stub := sp platform_name
    let username := get_username_from_social_link sp platform_name
      new_social_link
    if falsy username then none
    else some ("https://www." ++ url_stub ++ username.getD "")

end Accounts

namespace Monitoring

/-- The two kinds of reference graph written per leaked object type. -/
inductive GraphKind where
  | backrefs
  | refs
deriving DecidableEq, Repr

/-- One graph file generated by `show_memory_leaks`: the object type it was
generated for, which kind of graph it is, and its path. -/
structure GraphFile where
  type_name : String
  kind : GraphKind
  path : String
deriving DecidableEq, Repr

/-- The path of one generated graph file, as the source formats it. -/
def graphPath (graph_directory_path label : String) (pid index : Nat)
    (type_name tail : String) : String :=
  graph_directory_path ++ "/" ++ label ++ "_" ++ toString pid ++ "_" ++
    toString index ++ "_" ++ type_name ++ tail

/-- The body of the graphing loop of `show_memory_leaks`: an item whose type
name is ignored or whose new-object id list (read back from the `new_ids`
dictionary) is empty is skipped; any other item appends its backrefs graph
file and its refs graph file. -/
def graphStep (label : String) (pid index : Nat) (ignored_types : List String)
    (graph_directory_path : String) (new_ids : List (String × List Nat))
    (acc : List GraphFile) (item : String × List Nat) : List GraphFile :=
  let type_name := item.1
  let object_ids := (new_ids.lookup type_name).getD []
  if type_name ∈ ignored_types ∨ object_ids = [] then acc
  else
    acc ++
      [⟨type_name, GraphKind.backrefs,
         graphPath graph_directory_path label pid index type_name
           "_backrefs.dot"⟩,
       ⟨type_name, GraphKind.refs,
         graphPath graph_directory_path label pid index type_name
           "_refs.dot"⟩]

/-- `show_memory_leaks`, restricted to its durable observable output: the
reference-graph files it generates.  `new_ids` is the dictionary returned by
`objgraph.get_new_ids` (type name to list of new object ids), modelled as an
association list; the console logging, the `at_addrs` object resolution and
the graph rendering are external collaborator calls that produce no further
files.  The items are sorted by new-object count, descending and stable as
Python's `sorted` with `reverse=True` is; the first `max_graphed_object_types`
items are graphed, skipping ignored type names and empty id lists; each
graphed type yields one backrefs file and one refs file. -/
def show_memory_leaks (label : String) (pid index : Nat)
    (max_graphed_object_types : Nat) (ignored_types : List String)
    (graph_directory_path : String) (new_ids : List (String × List Nat)) :
    List GraphFile :=
  let sorted_by_count :=
    new_ids.mergeSort (fun a b => decide (b.2.length ≤ a.2.length))
  (sorted_by_count.take max_graphed_object_types).foldl
    (graphStep label pid index ignored_types graph_directory_path new_ids)
    []

/-- The two graph files one kept item contributes. -/
def itemFiles (label : String) (pid index : Nat)
    (graph_directory_path : String) (item : String × List Nat) :
    List GraphFile :=
  [⟨item.1, GraphKind.backrefs,
     graphPath graph_directory_path label pid index item.1 "_backrefs.dot"⟩,
   ⟨item.1, GraphKind.refs,
     graphPath graph_directory_path label pid index item.1 "_refs.dot"⟩]

/-- A sample `get_new_ids` dictionary, used to instantiate the theorems
below: three new sets (ignored by default), two new dicts, one tuple and no
lists. -/
def sampleNewIds : List (String × List Nat) :=
  [("set", [11, 12, 13]), ("dict", [21, 22]), ("list", []), ("tuple", [31])]

end Monitoring

namespace Entitlements

/-- C1: for every entitlement whose consumption record is non-null, a
successful `update` with reason `LEAVE_SESSION` returns 201 with the
serialized entitlement; re-reading the entitlement row afterwards yields a
null `expired_at` and a null consumption link; and exactly one new audit row
exists, with reason `LEAVE_SESSION`, referencing that entitlement, the
unenrolled course run, the supplied comments and the acting support agent. -/
theorem update_reinstate_success (req : UpdateRequest) (db : DBState)
    (e : CourseEntitlement) (enr : Enrollment)
    (hu : falsy req.entitlement_uuid = false)
    (hr : req.reason = some LEAVE_SESSION)
    (hfind : db.entitlements.find?
      (fun x => x.uuid = req.entitlement_uuid.getD "") = some e)
    (hspent : e.enrollment_course_run = some enr) :
    (update DbFault.ok req db).1 =
      Outcome.response (HttpResponse.created
        { e with expired_at := none, enrollment_course_run := none }) ∧
    (update DbFault.ok req db).2.1.entitlements.find?
        (fun x => x.uuid = req.entitlement_uuid.getD "") =
      some { e with expired_at := none, enrollment_course_run := none } ∧
    (update DbFault.ok req db).2.1.support_details =
      db.support_details ++
        [{ entitlement := e.uuid, reason := LEAVE_SESSION,
           comments := req.comments, unenrolled_run := some enr.course,
           support_user := req.user }] := by
  have hrf : falsy req.reason = false := by rw [hr]; rfl
  have hpe := List.find?_some hfind
  have he : e.uuid = req.entitlement_uuid.getD "" := by simpa using hpe
  have hcomp :
      (fun x : CourseEntitlement =>
          decide (x.uuid = req.entitlement_uuid.getD "")) ∘
        (fun x : CourseEntitlement =>
          if x.uuid = e.uuid then
            { e with expired_at := none, enrollment_course_run := none }
          else x) =
      fun x : CourseEntitlement =>
        decide (x.uuid = req.entitlement_uuid.getD "") := by
    funext x
    by_cases hx : x.uuid = e.uuid
    · simp [hx, he]
    · simp [hx]
  have hls : falsy (some LEAVE_SESSION) = false := rfl
  refine ⟨?_, ?_, ?_⟩ <;>
    simp only [update, hu, hrf, hls, Bool.false_eq_true, if_false, hfind, hr,
      reinstate_entitlement, hspent, if_pos rfl, reduceIte]
  rw [List.find?_map, hcomp, hfind]
  simp

/-- C1 witness: the sample reinstatement request on the sample store. -/
theorem update_reinstate_success_witness :
    (update DbFault.ok sampleReq sampleDb).1 =
      Outcome.response (HttpResponse.created sampleE2) ∧
    (update DbFault.ok sampleReq sampleDb).2.1.entitlements.find?
        (fun x => x.uuid = sampleReq.entitlement_uuid.getD "") =
      some sampleE2 ∧
    (update DbFault.ok sampleReq sampleDb).2.1.support_details =
      sampleDb.support_details ++ [sampleDetail] :=
  update_reinstate_success sampleReq sampleDb sampleE sampleEnr
    (by decide) rfl (by decide) rfl

/-- C2: on a storage fault at either write inside the atomic block, the
durable state is rolled back: the entitlement rows and the audit rows are
exactly as before the call. -/
theorem reinstate_rollback_on_fault (fault : DbFault) (support_user : String)
    (e : CourseEntitlement) (comments : Option String) (db : DBState)
    (hfault : fault ≠ DbFault.ok) :
    (reinstate_entitlement fault support_user e comments db).2.1 = db := by
  rcases he : e.enrollment_course_run with _ | enr <;>
    cases fault <;>
      first
        | exact absurd rfl hfault
        | simp [reinstate_entitlement, he]

/-- C2 witness: a fault at the entitlement save on the sample store. -/
theorem reinstate_rollback_on_fault_witness :
    (reinstate_entitlement DbFault.atSave "agent" sampleE
        (some "reinstated per policy") sampleDb).2.1 = sampleDb :=
  reinstate_rollback_on_fault DbFault.atSave "agent" sampleE
    (some "reinstated per policy") sampleDb (by decide)

/-- C3: reinstating an entitlement whose consumption record is null returns a
bad request whose message names the entitlement as not spent on a course run,
and performs no unenrollment, no entitlement update and no audit insert. -/
theorem reinstate_not_spent (fault : DbFault) (support_user : String)
    (e : CourseEntitlement) (comments : Option String) (db : DBState)
    (h : e.enrollment_course_run = none) :
    reinstate_entitlement fault support_user e comments db =
      (Outcome.response (HttpResponse.badRequest
        ("Entitlement " ++ entitlementStr e ++
          " has not been spent on a course run.")), db, []) ∧
    mentions ("Entitlement " ++ entitlementStr e ++
      " has not been spent on a course run.") (entitlementStr e) := by
  constructor
  · simp [reinstate_entitlement, h]
  · unfold mentions
    rw [String.data_append, String.data_append]
    exact List.infix_append _ _ _

/-- C3 witness: the sample unspent entitlement. -/
theorem reinstate_not_spent_witness :
    reinstate_entitlement DbFault.ok "agent" sampleUnspentE none sampleDb =
      (Outcome.response (HttpResponse.badRequest
        ("Entitlement " ++ entitlementStr sampleUnspentE ++
          " has not been spent on a course run.")), sampleDb, []) ∧
    mentions ("Entitlement " ++ entitlementStr sampleUnspentE ++
      " has not been spent on a course run.") (entitlementStr sampleUnspentE) :=
  reinstate_not_spent DbFault.ok "agent" sampleUnspentE none sampleDb rfl

/-- C4: when the atomic block fails with a `DatabaseError`, the handler does
not produce the intended bad-request response; its except clause evaluates
the undefined names `course_uuid` and `username_or_email`, so a `NameError`
escapes the handler.  The claim that the caller receives a 400 naming the
entitlement and course is contradicted at this input. -/
theorem reinstate_fault_name_error :
    (reinstate_entitlement DbFault.atSave "agent" sampleE
        (some "reinstated per policy") sampleDb).1 =
      Outcome.unhandled "NameError" ∧
    (reinstate_entitlement DbFault.atCreateDetail "agent" sampleE
        (some "reinstated per policy") sampleDb).1 =
      Outcome.unhandled "NameError" :=
  ⟨rfl, rfl⟩

/-- C5: an update request whose reason is present but not `LEAVE_SESSION`
reaches the end of the `update` method without a return statement, so the
view yields `None` rather than one of the stated 201/400 responses. -/
theorem update_other_reason_none :
    (update DbFault.ok
        { user := "agent", entitlement_uuid := some "ent-1",
          reason := some "CHANGE_SESSION", comments := none } sampleDb).1 =
      Outcome.noResponse := by
  decide

/-- C6: the successful reinstatement path performs its observable steps in
order: read the course run and learner from the consumption record, unenroll
that learner from that run with the refund skipped, persist the entitlement
with `expired_at` cleared and the consumption link detached, and finally
insert the audit row. -/
theorem reinstate_event_order (support_user : String)
    (e : CourseEntitlement) (comments : Option String) (db : DBState)
    (enr : Enrollment) (hspent : e.enrollment_course_run = some enr) :
    (reinstate_entitlement DbFault.ok support_user e comments db).2.2 =
      [Event.readConsumption enr.course enr.user,
       Event.unenroll enr.user enr.course.id true,
       Event.saveEntitlement
         { e with expired_at := none, enrollment_course_run := none },
       Event.createSupportDetail
         { entitlement := e.uuid, reason := LEAVE_SESSION,
           comments := comments, unenrolled_run := some enr.course,
           support_user := support_user }] := by
  simp [reinstate_entitlement, hspent]

/-- A string placed between two others is mentioned by the concatenation. -/
theorem mentions_middle (a b c : String) : mentions (a ++ b ++ c) b := by
  unfold mentions
  rw [String.data_append, String.data_append]
  exact List.infix_append _ _ _

/-- The accumulator of the missing-fields fold is a prefix of its result. -/
theorem foldl_acc_le (p : String → Bool) (xs : List String)
    (acc : String) :
    acc.data <+:
      (xs.foldl (fun a x => if p x then a ++ " " ++ x else a) acc).data := by
  induction xs generalizing acc with
  | nil => exact List.prefix_refl _
  | cons x xs ih =>
      rw [List.foldl_cons]
      cases hx : p x
      · rw [if_neg (by simp [hx])]
        exact ih acc
      · rw [if_pos (by simp [hx])]
        refine List.IsPrefix.trans ?_ (ih (acc ++ " " ++ x))
        rw [String.data_append, String.data_append, List.append_assoc]
        exact List.prefix_append _ _

/-- C6 witness: the event trace of the sample reinstatement. -/
theorem reinstate_event_order_witness :
    (reinstate_entitlement DbFault.ok "agent" sampleE
        (some "reinstated per policy") sampleDb).2.2 =
      [Event.readConsumption sampleEnr.course sampleEnr.user,
       Event.unenroll sampleEnr.user sampleEnr.course.id true,
       Event.saveEntitlement sampleE2,
       Event.createSupportDetail sampleDetail] :=
  reinstate_event_order "agent" sampleE (some "reinstated per policy")
    sampleDb sampleEnr rfl

/-- Every field kept by the missing-fields fold appears, preceded by its
separating space, inside the fold's result. -/
theorem foldl_step_mentions (p : String → Bool) (xs : List String)
    (acc f : String) (hmem : f ∈ xs) (hp : p f = true) :
    (" " ++ f).data <:+:
      (xs.foldl (fun a x => if p x then a ++ " " ++ x else a) acc).data := by
  revert hmem
  induction xs generalizing acc with
  | nil => intro hmem; cases hmem
  | cons x xs ih =>
      intro hmem
      rw [List.foldl_cons]
      rcases List.mem_cons.mp hmem with rfl | hmem2
      · rw [if_pos (by simp [hp])]
        refine List.IsInfix.trans ?_
          ( List.IsPrefix.isInfix (foldl_acc_le p xs (acc ++ " " ++ f)))
        rw [String.data_append, String.data_append, String.data_append,
          List.append_assoc]
        exact List.IsSuffix.isInfix (List.suffix_append _ _)
      · exact ih _ hmem2

/-- The missing-fields string of `create` mentions every falsy required
field, preceded by its separating space. -/
theorem missing_string_mentions (req : CreateRequest) (f : String)
    (hmem : f ∈ REQUIRED_CREATION_FIELDS)
    (hf : falsy (req.get f) = true) :
    (" " ++ f).data <:+: (missingFieldsString req).data :=
  foldl_step_mentions (fun x => falsy (req.get x)) REQUIRED_CREATION_FIELDS
    "" f hmem hf

/-- When a required creation field is falsy, the missing-fields string is
non-empty, so `create` takes the bad-request branch. -/
theorem missing_string_ne_empty (req : CreateRequest) (f : String)
    (hmem : f ∈ REQUIRED_CREATION_FIELDS)
    (hf : falsy (req.get f) = true) :
    missingFieldsString req ≠ "" := by
  intro h0
  have h := missing_string_mentions req f hmem hf
  rw [h0] at h
  rw [show ("" : String).data = [] from rfl, List.infix_nil,
    String.data_append] at h
  exact List.cons_ne_nil _ _ ((show (" " : String).data = [' '] from rfl) ▸ h)

/-- C7: every validation-failure response names the offending field or id:
a missing `entitlement_uuid`, or a missing `reason` when a uuid is present,
yields a 400 naming that field; an unresolvable uuid yields a 400 naming the
uuid; and a creation request with a falsy required field yields a 400 whose
message names that field. -/
theorem validation_messages_name_offender :
    (∀ (fault : DbFault) (req : UpdateRequest) (db : DBState),
      falsy req.entitlement_uuid = true →
        (update fault req db).1 =
          Outcome.response (HttpResponse.badRequest
            (requiredFieldMsg "entitlement_uuid")) ∧
        mentions (requiredFieldMsg "entitlement_uuid") "entitlement_uuid") ∧
    (∀ (fault : DbFault) (req : UpdateRequest) (db : DBState),
      falsy req.entitlement_uuid = false → falsy req.reason = true →
        (update fault req db).1 =
          Outcome.response (HttpResponse.badRequest
            (requiredFieldMsg "reason")) ∧
        mentions (requiredFieldMsg "reason") "reason") ∧
    (∀ (fault : DbFault) (req : UpdateRequest) (db : DBState),
      falsy req.entitlement_uuid = false → falsy req.reason = false →
      db.entitlements.find?
          (fun x => x.uuid = req.entitlement_uuid.getD "") = none →
        (update fault req db).1 =
          Outcome.response (HttpResponse.badRequest
            (notFoundMsg (req.entitlement_uuid.getD ""))) ∧
        mentions (notFoundMsg (req.entitlement_uuid.getD ""))
          (req.entitlement_uuid.getD "")) ∧
    (∀ (users : List String) (req : CreateRequest) (db : DBState)
        (field : String),
      field ∈ REQUIRED_CREATION_FIELDS → falsy (req.get field) = true →
        (create users req db).1 =
          Outcome.response (HttpResponse.badRequest
            (missingFieldsMsg (missingFieldsString req))) ∧
        mentions (missingFieldsMsg (missingFieldsString req)) field) := by
  refine ⟨?_, ?_, ?_, ?_⟩
  · intro fault req db h
    exact ⟨by simp [update, h], mentions_middle _ _ _⟩
  · intro fault req db h1 h2
    exact ⟨by simp [update, h1, h2], mentions_middle _ _ _⟩
  · intro fault req db h1 h2 hfind
    exact ⟨by simp [update, h1, h2, hfind], mentions_middle _ _ _⟩
  · intro users req db field hmem hf
    have hne := missing_string_ne_empty req field hmem hf
    refine ⟨by simp [create, hne], ?_⟩
    unfold mentions missingFieldsMsg
    have h1 : field.data <:+: (" " ++ field).data := by
      rw [String.data_append]
      exact List.IsSuffix.isInfix (List.suffix_append _ _)
    have h2 := missing_string_mentions req field hmem hf
    have h3 : (missingFieldsString req).data <:+:
        ("The following required fields are missing from the request:" ++
          missingFieldsString req).data := by
      rw [String.data_append]
      exact List.IsSuffix.isInfix (List.suffix_append _ _)
    exact List.IsInfix.trans (List.IsInfix.trans h1 h2) h3

/-- C7 witness: one concrete request per validation failure. -/
theorem validation_messages_name_offender_witness :
    ((update DbFault.ok
        { user := "agent", entitlement_uuid := none, reason := none,
          comments := none } sampleDb).1 =
      Outcome.response (HttpResponse.badRequest
        (requiredFieldMsg "entitlement_uuid")) ∧
      mentions (requiredFieldMsg "entitlement_uuid") "entitlement_uuid") ∧
    ((update DbFault.ok
        { user := "agent", entitlement_uuid := some "ent-1", reason := none,
          comments := none } sampleDb).1 =
      Outcome.response (HttpResponse.badRequest (requiredFieldMsg "reason")) ∧
      mentions (requiredFieldMsg "reason") "reason") ∧
    ((update DbFault.ok
        { user := "agent", entitlement_uuid := some "ent-404",
          reason := some "LEAVE_SESSION", comments := none } sampleDb).1 =
      Outcome.response (HttpResponse.badRequest (notFoundMsg "ent-404")) ∧
      mentions (notFoundMsg "ent-404") "ent-404") ∧
    ((create []
        { user := "agent", username_or_email := none, course_uuid := none,
          reason := none, mode := none, comments := none } sampleDb).1 =
      Outcome.response (HttpResponse.badRequest
        (missingFieldsMsg (missingFieldsString
          { user := "agent", username_or_email := none, course_uuid := none,
            reason := none, mode := none, comments := none }))) ∧
      mentions (missingFieldsMsg (missingFieldsString
        { user := "agent", username_or_email := none, course_uuid := none,
          reason := none, mode := none, comments := none })) "course_uuid") :=
  ⟨validation_messages_name_offender.1 DbFault.ok
      { user := "agent", entitlement_uuid := none, reason := none,
        comments := none } sampleDb rfl,
   validation_messages_name_offender.2.1 DbFault.ok
      { user := "agent", entitlement_uuid := some "ent-1", reason := none,
        comments := none } sampleDb (by decide) rfl,
   validation_messages_name_offender.2.2.1 DbFault.ok
      { user := "agent", entitlement_uuid := some "ent-404",
        reason := some "LEAVE_SESSION", comments := none } sampleDb
      (by decide) (by decide) (by decide),
   validation_messages_name_offender.2.2.2 []
      { user := "agent", username_or_email := none, course_uuid := none,
        reason := none, mode := none, comments := none } sampleDb
      "course_uuid" (by decide) (by decide)⟩

end Entitlements

namespace Accounts

/-- A username handed back by `_get_username_from_social_link` for a
non-falsy link has passed the slash check. -/
theorem get_username_valid (sp : String → String) (platform_name : String)
    (link : Option String) (s : String) (hlink : falsy link = false)
    (h : get_username_from_social_link sp platform_name link = some s) :
    is_valid_social_username s = true := by
  unfold get_username_from_social_link at h
  rw [hlink] at h
  simp only [Bool.false_eq_true, if_false] at h
  split at h
  · next hv => cases h; exact hv
  · next hv => cases h

/-- C9 counterexample: with the facebook url stub, a link that is already in
canonical form is returned verbatim by `format_social_link`, so the raw
input url is not never-returned as the claim states. -/
theorem format_social_link_echoes_input :
    format_social_link (fun _ => "facebook.com/") "facebook"
        (some "https://www.facebook.com/alice") =
      some "https://www.facebook.com/alice" := by
  decide

/-- C9 (amended): a falsy link is returned unchanged; a non-falsy link
yields either `none` or exactly the built-up string `https://www.` followed
by the platform's url stub and a non-empty extracted username holding no
slash.  The output is constructed from the stub and username rather than
echoed, but it can coincide with the input when the input is already
canonical. -/
theorem format_social_link_shape (sp : String → String)
    (platform_name : String) (link : Option String) :
    (falsy link = true → format_social_link sp platform_name link = link) ∧
    (falsy link = false →
      format_social_link sp platform_name link = none ∨
      ∃ username : String, username ≠ "" ∧
        is_valid_social_username username = true ∧
        format_social_link sp platform_name link =
          some ("https://www." ++ sp platform_name ++ username)) := by
  constructor
  · intro h
    simp [format_social_link, h]
  · intro h
    unfold format_social_link
    rw [h]
    simp only [Bool.false_eq_true, if_false]
    cases hu : get_username_from_social_link sp platform_name link with
    | none => exact Or.inl rfl
    | some s =>
        by_cases hs : s = ""
        · left
          rw [hs]
          rfl
        · right
          refine ⟨s, hs, get_username_valid sp platform_name link s h hu, ?_⟩
          simp [falsy, hs]

/-- C9 witness: the amended shape theorem applied to an empty link and to a
bare username. -/
theorem format_social_link_shape_witness :
    format_social_link (fun _ => "twitter.com/") "twitter" (some "") =
      some "" ∧
    (format_social_link (fun _ => "twitter.com/") "twitter" (some "bob") =
      none ∨
    ∃ username : String, username ≠ "" ∧
      is_valid_social_username username = true ∧
      format_social_link (fun _ => "twitter.com/") "twitter" (some "bob") =
        some ("https://www." ++ "twitter.com/" ++ username)) :=
  ⟨(format_social_link_shape (fun _ => "twitter.com/") "twitter"
      (some "")).1 rfl,
   (format_social_link_shape (fun _ => "twitter.com/") "twitter"
      (some "bob")).2 rfl⟩

end Accounts

namespace Monitoring

/-- The graphing fold only appends: folding from `acc` equals `acc` followed
by folding from the empty accumulator. -/
theorem graphStep_foldl_append (label : String) (pid index : Nat)
    (ign : List String) (dir : String) (ids : List (String × List Nat))
    (items : List (String × List Nat)) (acc : List GraphFile) :
    items.foldl (graphStep label pid index ign dir ids) acc =
      acc ++ items.foldl (graphStep label pid index ign dir ids) [] := by
  induction items generalizing acc with
  | nil => simp
  | cons it items ih =>
      rw [List.foldl_cons, List.foldl_cons,
        ih (graphStep label pid index ign dir ids acc it),
        ih (graphStep label pid index ign dir ids [] it)]
      by_cases h : it.1 ∈ ign ∨ (ids.lookup it.1).getD [] = []
      · simp [graphStep, h]
      · simp [graphStep, h]

/-- The graphing fold is the concatenation of the two files of every kept
item, in order. -/
theorem graphStep_foldl_flatMap (label : String) (pid index : Nat)
    (ign : List String) (dir : String) (ids : List (String × List Nat))
    (items : List (String × List Nat)) :
    items.foldl (graphStep label pid index ign dir ids) [] =
      (items.filter (fun item =>
          !decide (item.1 ∈ ign ∨ (ids.lookup item.1).getD [] = []))).flatMap
        (itemFiles label pid index dir) := by
  induction items with
  | nil => rfl
  | cons it items ih =>
      rw [List.foldl_cons,
        graphStep_foldl_append label pid index ign dir ids items
          (graphStep label pid index ign dir ids [] it),
        ih, List.filter_cons]
      by_cases h : it.1 ∈ ign ∨ (ids.lookup it.1).getD [] = []
      · simp [graphStep, itemFiles, h]
      · simp [graphStep, itemFiles, h]

/-- A type name absent from the kept items contributes no file. -/
theorem itemFiles_filter_nil (label : String) (pid index : Nat)
    (dir : String) (t : String) (ks : List (String × List Nat))
    (ht : t ∉ ks.map Prod.fst) :
    (ks.flatMap (itemFiles label pid index dir)).filter
      (fun f => f.type_name = t) = [] := by
  induction ks with
  | nil => rfl
  | cons k ks ih =>
      rw [List.map_cons, List.mem_cons, not_or] at ht
      obtain ⟨h1, h2⟩ := ht
      rw [List.flatMap_cons, List.filter_append]
      simp [itemFiles, Ne.symm h1, ih h2]

/-- With pairwise distinct keys, each type name contributes at most two
files. -/
theorem itemFiles_filter_le_two (label : String) (pid index : Nat)
    (dir : String) (t : String) (ks : List (String × List Nat))
    (hnd : (ks.map Prod.fst).Nodup) :
    ((ks.flatMap (itemFiles label pid index dir)).filter
      (fun f => f.type_name = t)).length ≤ 2 := by
  induction ks with
  | nil => simp
  | cons k ks ih =>
      rw [List.map_cons, List.nodup_cons] at hnd
      obtain ⟨hk, hnd2⟩ := hnd
      rw [List.flatMap_cons, List.filter_append, List.length_append]
      by_cases ht : k.1 = t
      · subst ht
        rw [itemFiles_filter_nil label pid index dir k.1 ks hk]
        simp [itemFiles]
      · have hz : (itemFiles label pid index dir k).filter
            (fun f => f.type_name = t) = [] := by
          simp [itemFiles, ht]
        rw [hz]
        simpa using ih hnd2

/-- C10: each call to `show_memory_leaks` generates files for at most
`max_graphed_object_types` object types, at most two files per type (one
backrefs graph and one refs graph), and no file for an ignored type name or
for a type whose new-object id list is empty. -/
theorem show_memory_leaks_bounds (label : String) (pid index : Nat)
    (max_graphed_object_types : Nat) (ignored_types : List String)
    (dir : String) (new_ids : List (String × List Nat))
    (hnodup : (new_ids.map Prod.fst).Nodup) :
    (∃ ts : List String, ts.length ≤ max_graphed_object_types ∧
      ∀ f ∈ show_memory_leaks label pid index max_graphed_object_types
          ignored_types dir new_ids, f.type_name ∈ ts) ∧
    (∀ t : String,
      ((show_memory_leaks label pid index max_graphed_object_types
          ignored_types dir new_ids).filter
        (fun f => f.type_name = t)).length ≤ 2) ∧
    (∀ f ∈ show_memory_leaks label pid index max_graphed_object_types
        ignored_types dir new_ids,
      f.type_name ∉ ignored_types ∧
        (new_ids.lookup f.type_name).getD [] ≠ []) := by
  have hrw : show_memory_leaks label pid index max_graphed_object_types
      ignored_types dir new_ids =
      (((new_ids.mergeSort
            (fun a b => decide (b.2.length ≤ a.2.length))).take
          max_graphed_object_types).filter (fun item =>
          !decide (item.1 ∈ ignored_types ∨
            (new_ids.lookup item.1).getD [] = []))).flatMap
        (itemFiles label pid index dir) :=
    graphStep_foldl_flatMap label pid index ignored_types dir new_ids
      ((new_ids.mergeSort
          (fun a b => decide (b.2.length ≤ a.2.length))).take
        max_graphed_object_types)
  have hperm :=
    List.mergeSort_perm new_ids (fun a b => decide (b.2.length ≤ a.2.length))
  have htype : ∀ f item, f ∈ itemFiles label pid index dir item →
      f.type_name = item.1 := by
    intro f item hf
    simp only [itemFiles, List.mem_cons, List.not_mem_nil, or_false] at hf
    rcases hf with rfl | rfl <;> rfl
  refine ⟨⟨((new_ids.mergeSort
      (fun a b => decide (b.2.length ≤ a.2.length))).take
        max_graphed_object_types).map Prod.fst, ?_, ?_⟩, ?_, ?_⟩
  · rw [List.length_map]
    exact List.length_take_le _ _
  · intro f hf
    rw [hrw] at hf
    obtain ⟨item, hitem, hfin⟩ := List.mem_flatMap.mp hf
    rw [htype f item hfin]
    exact List.mem_map_of_mem Prod.fst (List.mem_of_mem_filter hitem)
  · intro t
    rw [hrw]
    refine itemFiles_filter_le_two label pid index dir t _ ?_
    have h1 : ((new_ids.mergeSort
        (fun a b => decide (b.2.length ≤ a.2.length))).map Prod.fst).Nodup :=
      ((hperm.map Prod.fst).symm).nodup hnodup
    have h2 := ( (List.take_sublist max_graphed_object_types _).map
      Prod.fst).nodup h1
    exact ( (List.filter_sublist _).map Prod.fst).nodup h2
  · intro f hf
    rw [hrw] at hf
    obtain ⟨item, hitem, hfin⟩ := List.mem_flatMap.mp hf
    have hkeep := List.of_mem_filter hitem
    have hP : ¬(item.1 ∈ ignored_types ∨
        (new_ids.lookup item.1).getD [] = []) := by
      simpa using hkeep
    rw [not_or] at hP
    rw [htype f item hfin]
    exact hP

/-- C10 witness: the sample dictionary graphed with a budget of two types
and `set` ignored. -/
theorem show_memory_leaks_bounds_witness :
    (∃ ts : List String, ts.length ≤ 2 ∧
      ∀ f ∈ show_memory_leaks "memory_leaks" 7 1 2 ["set"] "/tmp/graphs"
          sampleNewIds, f.type_name ∈ ts) ∧
    (∀ t : String,
      ((show_memory_leaks "memory_leaks" 7 1 2 ["set"] "/tmp/graphs"
          sampleNewIds).filter (fun f => f.type_name = t)).length ≤ 2) ∧
    (∀ f ∈ show_memory_leaks "memory_leaks" 7 1 2 ["set"] "/tmp/graphs"
        sampleNewIds,
      f.type_name ∉ ["set"] ∧
        (sampleNewIds.lookup f.type_name).getD [] ≠ []) :=
  show_memory_leaks_bounds "memory_leaks" 7 1 2 ["set"] "/tmp/graphs"
    sampleNewIds (by decide)

end Monitoring
